import Mathlib

/-!
Verification of the VIN/plate intelligence agent (`vinAgent.js`).

The JavaScript source is embedded shallowly: strings are Lean `String`s
(lists of characters), JS objects become structures with `Option` fields for
possibly-absent keys, and the fallible pipeline stages return `Except`.
JS case conversion is modelled on the ASCII fragment (the special Unicode
case mappings such as U+00DF do not affect the properties at issue, since
every non-Latin character is stripped before classification), and JS
`trim` is modelled on the ASCII whitespace characters.
-/

namespace VinAgent

/-- ASCII uppercase Latin letters, the regex class fragment A-Z. -/
def latinUpperChars : List Char :=
  ['A','B','C','D','E','F','G','H','I','J','K','L','M',
   'N','O','P','Q','R','S','T','U','V','W','X','Y','Z']

/-- ASCII lowercase Latin letters, the regex class fragment a-z. -/
def latinLowerChars : List Char :=
  ['a','b','c','d','e','f','g','h','i','j','k','l','m',
   'n','o','p','q','r','s','t','u','v','w','x','y','z']

/-- Decimal digits, the regex class fragment 0-9. -/
def digitChars : List Char :=
  ['0','1','2','3','4','5','6','7','8','9']

/-- Membership in the class `[A-Za-z0-9]` of the regex `NON_ALNUM`
(a character is kept by `replace(NON_ALNUM, '')` iff it is in this class). -/
def isLatinAlnum (c : Char) : Bool :=
  decide (c ∈ latinUpperChars) || decide (c ∈ latinLowerChars) ||
    decide (c ∈ digitChars)

/-- ASCII fragment of JS `String.prototype.toUpperCase`, per character. -/
def jsUpperChar : Char → Char
  | 'a' => 'A' | 'b' => 'B' | 'c' => 'C' | 'd' => 'D' | 'e' => 'E'
  | 'f' => 'F' | 'g' => 'G' | 'h' => 'H' | 'i' => 'I' | 'j' => 'J'
  | 'k' => 'K' | 'l' => 'L' | 'm' => 'M' | 'n' => 'N' | 'o' => 'O'
  | 'p' => 'P' | 'q' => 'Q' | 'r' => 'R' | 's' => 'S' | 't' => 'T'
  | 'u' => 'U' | 'v' => 'V' | 'w' => 'W' | 'x' => 'X' | 'y' => 'Y'
  | 'z' => 'Z'
  | c => c

/-- ASCII fragment of JS `String.prototype.toLowerCase`, per character. -/
def jsLowerChar : Char → Char
  | 'A' => 'a' | 'B' => 'b' | 'C' => 'c' | 'D' => 'd' | 'E' => 'e'
  | 'F' => 'f' | 'G' => 'g' | 'H' => 'h' | 'I' => 'i' | 'J' => 'j'
  | 'K' => 'k' | 'L' => 'l' | 'M' => 'm' | 'N' => 'n' | 'O' => 'o'
  | 'P' => 'p' | 'Q' => 'q' | 'R' => 'r' | 'S' => 's' | 'T' => 't'
  | 'U' => 'u' | 'V' => 'v' | 'W' => 'w' | 'X' => 'x' | 'Y' => 'y'
  | 'Z' => 'z'
  | c => c

/-- Whitespace characters removed by JS `trim`, ASCII fragment. -/
def jsWsChars : List Char := [' ', '\t', '\n', '\r']

/-- Whether `trim` removes the character. -/
def isJsWs (c : Char) : Bool := decide (c ∈ jsWsChars)

/-- JS `String.prototype.trim` on the character list: drop leading and
trailing whitespace. -/
def jsTrimList (l : List Char) : List Char :=
  ((l.dropWhile isJsWs).reverse.dropWhile isJsWs).reverse

/-- Whether the character list `hay` starts with `sub`
(helper for JS `String.prototype.includes`). -/
def startsWithList : List Char → List Char → Bool
  | _, [] => true
  | [], _ :: _ => false
  | c :: cs, d :: ds => c == d && startsWithList cs ds

/-- JS `hay.includes(sub)`: `sub` occurs as a contiguous substring. -/
def listIncludes (hay sub : List Char) : Bool :=
  hay.tails.any (fun t => startsWithList t sub)

/-- JS `hay.includes(sub)` on strings. -/
def includesStr (hay sub : String) : Bool := listIncludes hay.toList sub.toList

/-- JS `toLowerCase` on a string (ASCII fragment). -/
def jsLowerStr (s : String) : String := String.mk (s.toList.map jsLowerChar)

/-- The cleaning part of `normalizeQuery`, on character lists:
`(q || '').trim().toUpperCase().replace(NON_ALNUM, '')`. -/
def cleanList (l : List Char) : List Char :=
  ((jsTrimList l).map jsUpperChar).filter isLatinAlnum

/-- The cleaned value `v` computed at the start of `normalizeQuery`. -/
def cleanQuery (q : String) : String := String.mk (cleanList q.toList)

/-- The VIN character class `[A-HJ-NPR-Z0-9]` (letters I, O, Q excluded),
enumerated. -/
def vinChars : List Char :=
  ['A','B','C','D','E','F','G','H','J','K','L','M','N','P',
   'R','S','T','U','V','W','X','Y','Z',
   '0','1','2','3','4','5','6','7','8','9']

/-- Membership in the VIN character class. -/
def vinCharOk (c : Char) : Bool := decide (c ∈ vinChars)

/-- The test `/^[A-HJ-NPR-Z0-9]{17}$/.test(vin)`. -/
def vinRegexOk (v : String) : Bool :=
  v.length == 17 && v.toList.all vinCharOk

/-- The `translit` object literal of `vinAgent.js`, as the key/value table
it is in the source (no entries for I, O, Q). -/
def translitTable : List (Char × Nat) :=
  [('A', 1), ('B', 2), ('C', 3), ('D', 4), ('E', 5), ('F', 6), ('G', 7),
   ('H', 8), ('J', 1), ('K', 2), ('L', 3), ('M', 4), ('N', 5), ('P', 7),
   ('R', 9), ('S', 2), ('T', 3), ('U', 4), ('V', 5), ('W', 6), ('X', 7),
   ('Y', 8), ('Z', 9),
   ('0', 0), ('1', 1), ('2', 2), ('3', 3), ('4', 4), ('5', 5), ('6', 6),
   ('7', 7), ('8', 8), ('9', 9)]

/-- The property access `translit[ch]` (`none` models `undefined`). -/
def translit (c : Char) : Option Nat := List.lookup c translitTable

/-- `translit[ch] ?? 0` of the source's reduce step. -/
def translitD (c : Char) : Nat := (translit c).getD 0

/-- The fixed `weights` vector (17 entries; index 8 carries weight 0). -/
def weights : List Nat := [8,7,6,5,4,3,2,10,0,9,8,7,6,5,4,3,2]

/-- The indexed reduce of `vinChecksumValid`:
`acc + (translit[ch] ?? 0) * weights[i]` starting at index `i`. -/
def vinSum : List Char → Nat → Nat
  | [], _ => 0
  | c :: cs, i => translitD c * weights.getD i 0 + vinSum cs (i + 1)

/-- `vinChecksumValid(vin)` of `vinAgent.js`: regex gate, weighted sum
mod 11, expected check character, comparison at index 8. -/
def vinChecksumValid (v : String) : Bool :=
  if vinRegexOk v then
    let sum := vinSum v.toList 0
    let remainder := sum % 11
    let check := if remainder = 10 then 'X' else Nat.digitChar remainder
    v.toList.getD 8 ' ' == check
  else false

/-- `isLikelyVIN(v)` of `vinAgent.js`. -/
def isLikelyVIN (v : String) : Bool := vinRegexOk v && vinChecksumValid v

/-- The Cyrillic letters of the plate regex class: А-Я plus І, Ї, Є, Ґ. -/
def cyrChars : List Char :=
  ['А','Б','В','Г','Д','Е','Ж','З','И','Й','К','Л','М','Н','О','П',
   'Р','С','Т','У','Ф','Х','Ц','Ч','Ш','Щ','Ъ','Ы','Ь','Э','Ю','Я',
   'І','Ї','Є','Ґ']

/-- Membership in the plate character class `[A-ZА-ЯІЇЄҐ0-9]`. -/
def plateCharOk (c : Char) : Bool :=
  decide (c ∈ latinUpperChars) || decide (c ∈ cyrChars) ||
    decide (c ∈ digitChars)

/-- The test `/^[A-ZА-ЯІЇЄҐ0-9]{5,10}$/.test(v)`. -/
def plateRegexOk (v : String) : Bool :=
  decide (5 ≤ v.length) && decide (v.length ≤ 10) &&
    v.toList.all plateCharOk

/-- Classification kinds returned by `normalizeQuery`. -/
inductive QueryKind where
  | vin
  | plate
  | unknown
deriving DecidableEq, Repr

/-- The `{ kind, value }` record returned by `normalizeQuery`. -/
structure NormalizedInput where
  kind : QueryKind
  value : String
deriving DecidableEq, Repr

/-- `normalizeQuery(q)` of `vinAgent.js`. -/
def normalizeQuery (q : String) : NormalizedInput :=
  let v := cleanQuery q
  if isLikelyVIN v then { kind := QueryKind.vin, value := v }
  else if plateRegexOk v then { kind := QueryKind.plate, value := v }
  else { kind := QueryKind.unknown, value := v }

/-- The fixed `RISK_KEYWORDS` list of `vinAgent.js`. -/
def RISK_KEYWORDS : List String :=
  ["salvage","totaled","accident","crash","flood","hail","fire","theft",
   "stolen","copart","iaai","auction","odometer rollback",
   "mileage rollback","write-off","damaged","repairable"]

/-- One normalized web hit `{ title, link, snippet }`. -/
structure WebHit where
  title : String
  link : String
  snippet : String
deriving DecidableEq, Repr

/-- The NHTSA decode response; `Results` is a list of records modelled as
key/value lists. Other top-level response fields (Count, Message,
SearchCriteria) are not consulted by the agent and are omitted from the
model. -/
structure Nhtsa where
  Results : List (List (String × String))
deriving DecidableEq, Repr

/-- The six facts extracted from the first NHTSA result row; `none` models
a JS `undefined` field. -/
structure Facts where
  Make : Option String
  Model : Option String
  ModelYear : Option String
  BodyClass : Option String
  VehicleType : Option String
  PlantCountry : Option String
deriving DecidableEq, Repr

/-- The facts assignment of `nodeVinInfo`:
`row = nhtsa?.Results?.[0] || {}` followed by the six field copies. The
spread of the previous facts is omitted because all six fields (the only
fields `Facts` has) are overwritten. -/
def factsOf (nh : Nhtsa) : Facts :=
  let row := nh.Results.headD []
  { Make := List.lookup "Make" row
    Model := List.lookup "Model" row
    ModelYear := List.lookup "ModelYear" row
    BodyClass := List.lookup "BodyClass" row
    VehicleType := List.lookup "VehicleType" row
    PlantCountry := List.lookup "PlantCountry" row }

/-- JSON string escaping for the characters that occur in the modelled
values (quote and backslash; escapes of control characters below U+0020
are not modelled, no modelled input contains them). -/
def escChar (c : Char) : String :=
  if c = '"' then "\\\"" else if c = '\\' then "\\\\" else String.mk [c]

/-- `JSON.stringify` of a string value. -/
def jstr (s : String) : String :=
  "\"" ++ (s.toList.map escChar).foldr (fun a b => a ++ b) "" ++ "\""

/-- `JSON.stringify` of one web hit object (keys in insertion order). -/
def stringifyHit (h : WebHit) : String :=
  "\x7b\"title\":" ++ jstr h.title ++ ",\"link\":" ++ jstr h.link ++
    ",\"snippet\":" ++ jstr h.snippet ++ "\x7d"

/-- `JSON.stringify` of the web-hit array. -/
def stringifyHits (hits : List WebHit) : String :=
  "[" ++ String.intercalate "," (hits.map stringifyHit) ++ "]"

/-- `JSON.stringify` of one NHTSA result row. -/
def stringifyRow (row : List (String × String)) : String :=
  "\x7b" ++
    String.intercalate ","
      (row.map (fun kv => jstr kv.1 ++ ":" ++ jstr kv.2)) ++ "\x7d"

/-- `JSON.stringify` of the modelled NHTSA response. -/
def stringifyNhtsa (nh : Nhtsa) : String :=
  "\x7b\"Results\":[" ++
    String.intercalate "," (nh.Results.map stringifyRow) ++ "]\x7d"

/-- One `{ ok, note }` marker entry. -/
structure MarkerEntry where
  ok : Bool
  note : String
deriving DecidableEq, Repr

/-- The marker object built by `nodeMarkers`; `vin_checksum` and
`vin_decoded` are only present for VIN inputs. -/
structure Markers where
  input_type : MarkerEntry
  vin_checksum : Option MarkerEntry
  vin_decoded : Option MarkerEntry
  web_presence : MarkerEntry
  risk_flags : MarkerEntry
deriving DecidableEq, Repr

/-- The aggregates channel `{ vin, plate, vinValid, nhtsa, webHits, risks,
markers, report, facts }`; `none` models an absent key. -/
structure Aggregate where
  vin : Option String := none
  plate : Option String := none
  vinValid : Option Bool := none
  nhtsa : Option Nhtsa := none
  facts : Option Facts := none
  webHits : Option (List WebHit) := none
  risks : Option (List String) := none
  markers : Option Markers := none
  report : Option String := none
deriving DecidableEq, Repr

/-- The graph state: `input` (the raw `q`), `norm`, `aggregates`. `norm` is
`none` before the normalize stage has run. -/
structure State where
  input : String
  norm : Option NormalizedInput := none
  aggregates : Aggregate := {}
deriving DecidableEq, Repr

/-- The initial state `{ input: { q } }` handed to the graph. -/
def initState (q : String) : State := { input := q }

/-- `nodeNormalize` of `vinAgent.js`: classify the input and record
`vin`/`vinValid` or `plate` in the aggregates. -/
def nodeNormalize (s : State) : State :=
  let norm := normalizeQuery s.input
  let agg1 :=
    if norm.kind = QueryKind.vin then
      { s.aggregates with vin := some norm.value,
                          vinValid := some (vinChecksumValid norm.value) }
    else s.aggregates
  let agg2 :=
    if norm.kind = QueryKind.plate then { agg1 with plate := some norm.value }
    else agg1
  { s with norm := some norm, aggregates := agg2 }

/-- `nodeVinInfo` of `vinAgent.js`, with the NHTSA call abstracted as the
collaborator `d`. The guard mirrors
`if (norm.kind !== 'vin' || !aggregates.vin) return \x7b\x7d` (JS
truthiness: an absent or empty `vin` skips the stage); a `none` norm is
treated as a skip, which is unreachable in the wired graph where
`normalize` always runs first. -/
def nodeVinInfo {ε : Type} (d : String → Except ε Nhtsa) (s : State) :
    Except ε State :=
  match s.norm with
  | none => Except.ok s
  | some n =>
    if n.kind ≠ QueryKind.vin then Except.ok s
    else
      match s.aggregates.vin with
      | none => Except.ok s
      | some v =>
        if v = "" then Except.ok s
        else
          match d v with
          | Except.error e => Except.error e
          | Except.ok nh =>
            Except.ok { s with aggregates :=
              { s.aggregates with nhtsa := some nh,
                                  facts := some (factsOf nh) } }

/-- `nodeWebSearch` of `vinAgent.js`, with the Tavily call abstracted as
the collaborator `se`. The query is
`norm.kind === 'vin' ? aggregates.vin : (aggregates.plate || input.q)`;
JS falsiness of `aggregates.plate` covers both an absent and an empty
plate, and the defaults for a `none` norm or vin are unreachable in the
wired graph. -/
def nodeWebSearch {ε : Type} (se : String → Except ε (List WebHit))
    (s : State) : Except ε State :=
  let n := s.norm.getD { kind := QueryKind.unknown, value := "" }
  let query :=
    if n.kind = QueryKind.vin then s.aggregates.vin.getD ""
    else
      match s.aggregates.plate with
      | some p => if p = "" then s.input else p
      | none => s.input
  match se query with
  | Except.error e => Except.error e
  | Except.ok hits =>
    Except.ok { s with aggregates := { s.aggregates with webHits := some hits } }

/-- JS `Set.prototype.add` on the insertion-ordered element list. -/
def setAdd (l : List String) (x : String) : List String :=
  if x ∈ l then l else l ++ [x]

/-- The serialization scanned by `nodeRisks`:
`JSON.stringify(aggregates.webHits || []) + ' ' +
JSON.stringify(aggregates.nhtsa || \x7b\x7d)`. -/
def riskText (agg : Aggregate) : String :=
  stringifyHits (agg.webHits.getD []) ++ " " ++
    (match agg.nhtsa with
     | some nh => stringifyNhtsa nh
     | none => "\x7b\x7d")

/-- The auction-link test `/copart|iaai|auction|salvage/i.test(h.link)`,
as case-insensitive substring search for any alternative. -/
def auctionPat (s : String) : Bool :=
  let ls := jsLowerStr s
  includesStr ls "copart" || includesStr ls "iaai" ||
    includesStr ls "auction" || includesStr ls "salvage"

/-- The risk set computed by `nodeRisks`: keyword scan over the lowered
serialization, then the `multiple_auctions` label when at least two hit
links match the auction pattern. -/
def risksOf (agg : Aggregate) : List String :=
  let text := jsLowerStr (riskText agg)
  let base := RISK_KEYWORDS.foldl
    (fun acc kw => if includesStr text kw then setAdd acc kw else acc) []
  let auctionCount :=
    (agg.webHits.getD []).countP (fun h => auctionPat h.link)
  if 2 ≤ auctionCount then setAdd base "multiple_auctions" else base

/-- `nodeRisks` of `vinAgent.js` (pure). -/
def nodeRisks (s : State) : State :=
  { s with aggregates := { s.aggregates with risks := some (risksOf s.aggregates) } }

/-- Note text for `input_type`: the kind string. -/
def kindNote : QueryKind → String
  | QueryKind.vin => "vin"
  | QueryKind.plate => "plate"
  | QueryKind.unknown => "unknown"

/-- The `decodedOk` test of `nodeMarkers`:
`!!(aggregates.nhtsa?.Results?.[0]?.Model)` (absent or empty is falsy). -/
def decodedOk (agg : Aggregate) : Bool :=
  match agg.nhtsa with
  | some nh =>
    match nh.Results.head? with
    | some row =>
      match List.lookup "Model" row with
      | some m => m ≠ ""
      | none => false
    | none => false
  | none => false

/-- The marker object built by `nodeMarkers` from the normalized input and
the aggregates. -/
def markersOf (n : NormalizedInput) (agg : Aggregate) : Markers :=
  let vinPair : Option MarkerEntry × Option MarkerEntry :=
    if n.kind = QueryKind.vin then
      (some { ok := agg.vinValid.getD false, note := agg.vin.getD "" },
       some { ok := decodedOk agg,
              note := if decodedOk agg then "NHTSA decoded" else "no decode" })
    else (none, none)
  let hits := agg.webHits.getD []
  let hasWeb := decide (0 < hits.length)
  let rs := agg.risks.getD []
  let risky := decide (0 < rs.length)
  { input_type := { ok := decide (n.kind ≠ QueryKind.unknown),
                    note := kindNote n.kind }
    vin_checksum := vinPair.1
    vin_decoded := vinPair.2
    web_presence := { ok := hasWeb,
                      note := if hasWeb then Nat.repr hits.length ++ " hits"
                              else "no hits" }
    risk_flags := { ok := !risky,
                    note := if risky then String.intercalate ", " rs
                            else "none" } }

/-- `nodeMarkers` of `vinAgent.js` (pure); the `none` norm default is
unreachable in the wired graph. -/
def nodeMarkers (s : State) : State :=
  let n := s.norm.getD { kind := QueryKind.unknown, value := "" }
  { s with aggregates :=
      { s.aggregates with markers := some (markersOf n s.aggregates) } }

/-- The structured payload `nodeReport` embeds into the LLM prompt:
identifiers, facts, markers, and the first 8 web hits. -/
structure ReportPayload where
  vin : Option String
  plate : Option String
  facts : Option Facts
  markers : Option Markers
  hits : List WebHit
deriving DecidableEq, Repr

/-- Payload construction of `nodeReport`
(`hits: (aggregates.webHits || []).slice(0,8)`). -/
def reportPayload (agg : Aggregate) : ReportPayload :=
  { vin := agg.vin
    plate := agg.plate
    facts := agg.facts
    markers := agg.markers
    hits := (agg.webHits.getD []).take 8 }

/-- `nodeReport` of `vinAgent.js`, with the LLM invocation abstracted as
the collaborator `su`; the returned text is stored verbatim. -/
def nodeReport {ε : Type} (su : ReportPayload → Except ε String)
    (s : State) : Except ε State :=
  match su (reportPayload s.aggregates) with
  | Except.error e => Except.error e
  | Except.ok rpt =>
    Except.ok { s with aggregates := { s.aggregates with report := some rpt } }

/-- Modelled from the spec: the StateGraph executor (LangGraph library
code, not part of this repository) is specified in §4.3 to run the wired
stages in the fixed linear order normalize → vin_info → web_search →
risks → markers → report, replace each channel with the stage's returned
patch, and on a raised error abort the remaining stages and propagate the
error annotated with the raising stage's name. The edge wiring itself is
embedded from the `addEdge` chain of `vinAgent.js`. -/
def runPipeline {ε : Type} (d : String → Except ε Nhtsa)
    (se : String → Except ε (List WebHit))
    (su : ReportPayload → Except ε String) (q : String) :
    Except (String × ε) State :=
  let s1 := nodeNormalize (initState q)
  match nodeVinInfo d s1 with
  | Except.error e => Except.error ("vin_info", e)
  | Except.ok s2 =>
    match nodeWebSearch se s2 with
    | Except.error e => Except.error ("web_search", e)
    | Except.ok s3 =>
      let s4 := nodeRisks s3
      let s5 := nodeMarkers s4
      match nodeReport su s5 with
      | Except.error e => Except.error ("report", e)
      | Except.ok s6 => Except.ok s6

/-- Enumeration of the aggregate fields, for stating the merge-discipline
invariant uniformly. -/
inductive AggField where
  | vin
  | plate
  | vinValid
  | nhtsa
  | facts
  | webHits
  | risks
  | markers
  | report
deriving DecidableEq, Repr

/-- A uniform value type for aggregate fields. -/
inductive FieldVal where
  | str : String → FieldVal
  | flag : Bool → FieldVal
  | resp : Nhtsa → FieldVal
  | fcts : Facts → FieldVal
  | hits : List WebHit → FieldVal
  | labels : List String → FieldVal
  | marks : Markers → FieldVal
deriving DecidableEq, Repr

/-- Uniform read of one aggregate field. -/
def Aggregate.fieldGet (a : Aggregate) : AggField → Option FieldVal
  | AggField.vin => a.vin.map FieldVal.str
  | AggField.plate => a.plate.map FieldVal.str
  | AggField.vinValid => a.vinValid.map FieldVal.flag
  | AggField.nhtsa => a.nhtsa.map FieldVal.resp
  | AggField.facts => a.facts.map FieldVal.fcts
  | AggField.webHits => a.webHits.map FieldVal.hits
  | AggField.risks => a.risks.map FieldVal.labels
  | AggField.markers => a.markers.map FieldVal.marks
  | AggField.report => a.report.map FieldVal.str

/-- Merge discipline between two aggregates: every field present in `a`
is still present in `b` with the same value. -/
def agPreserves (a b : Aggregate) : Prop :=
  ∀ f : AggField, (a.fieldGet f).isSome = true → b.fieldGet f = a.fieldGet f

/-- Spec-side restatement (for C1) of the §4.2 checksum sum: position `i`
is multiplied by the fixed weight vector entry `i` and the 17 products are
summed. -/
def specWeight (i : Nat) : Nat := weights.getD i 0

/-- Spec-side §4.2 weighted sum over the 17 positions. -/
def specVinSum (v : String) : Nat :=
  ((List.range 17).map
    (fun i => translitD (v.toList.getD i ' ') * specWeight i)).sum

/-- Spec-side §4.2 expected check character: `X` for remainder 10,
otherwise the decimal digit of the remainder. -/
def specCheckChar (v : String) : Char :=
  let remainder := specVinSum v % 11
  if remainder = 10 then 'X' else Nat.digitChar remainder

/-- The reference VIN with its check character (index 8) replaced by `c`. -/
def flipVin (c : Char) : String := "1HGCM826" ++ String.mk [c] ++ "3A004352"

/-- Spec-side (for C7): `JSON.stringify` of the six-field `VehicleFacts`
record of spec §3, absent fields omitted as JS does for `undefined`. -/
def stringifyFacts (f : Facts) : String :=
  match f with
  | { Make := mk, Model := md, ModelYear := my, BodyClass := bc,
      VehicleType := vt, PlantCountry := pc } =>
    "\x7b" ++
      String.intercalate ","
        (([("Make", mk), ("Model", md), ("ModelYear", my), ("BodyClass", bc),
           ("VehicleType", vt), ("PlantCountry", pc)].filterMap
          (fun kv => kv.2.map (fun s => jstr kv.1 ++ ":" ++ jstr s)))) ++
      "\x7d"

/-- Spec-side (for C7): the serialization the claim says the risk
evaluator scans — the web hits and the decoded `VehicleFacts`, not the
raw decode response. -/
def specRiskText (agg : Aggregate) : String :=
  stringifyHits (agg.webHits.getD []) ++ " " ++
    (match agg.facts with
     | some f => stringifyFacts f
     | none => "\x7b\x7d")

/-- Modelled from the spec (for C8): the host component of a hit link, as
used by the claim's auction-domain counting — the characters after the
scheme separator up to the first slash. -/
def dropThroughScheme : List Char → List Char
  | ':' :: '/' :: '/' :: rest => rest
  | _ :: rest => dropThroughScheme rest
  | [] => []

/-- Modelled from the spec (for C8): the link host. -/
def hostOf (url : String) : String :=
  String.mk ((dropThroughScheme url.toList).takeWhile (fun c => c ≠ '/'))

/-- Spec-side (for C8): the number of hits whose link host matches the
auction pattern, as the claim states the evaluator counts. -/
def specHostAuctionCount (hits : List WebHit) : Nat :=
  hits.countP (fun h => auctionPat (hostOf h.link))

/-- Spec-side (for C10): the Latin-only plate pattern `[A-Z0-9]{5,10}` of
spec §4.1 before the Cyrillic extension. -/
def latinPlateOk (v : String) : Bool :=
  decide (5 ≤ v.length) && decide (v.length ≤ 10) &&
    v.toList.all (fun c =>
      decide (c ∈ latinUpperChars) || decide (c ∈ digitChars))

/-- Aggregate whose NHTSA response carries a risk keyword outside the six
extracted facts (all facts absent): distinguishes serializing the decode
response from serializing the facts. -/
def aggRisksCex : Aggregate :=
  { webHits := some [],
    nhtsa := some { Results := [[("ErrorText", "SALVAGE TITLE RECORD")]] },
    facts := some { Make := none, Model := none, ModelYear := none,
                    BodyClass := none, VehicleType := none,
                    PlantCountry := none } }

/-- Two hits whose hosts are not auction domains but whose query strings
contain the word auction. -/
def aggAuctionPathCex : Aggregate :=
  { webHits := some
      [{ title := "t1", link := "https://example.com/a?ref=auction",
         snippet := "s1" },
       { title := "t2", link := "https://example.org/b?ref=auction",
         snippet := "s2" }] }

/-- The claim's concrete example: one Copart and one IAAI hit. -/
def aggAuctionEx : Aggregate :=
  { webHits := some
      [{ title := "", link := "https://www.copart.com/x", snippet := "" },
       { title := "", link := "https://www.iaai.com/y", snippet := "" }] }

/-- A VIN-classified normalized input for the marker examples. -/
def normC9 : NormalizedInput :=
  { kind := QueryKind.vin, value := "1HGCM82633A004352" }

/-- An aggregate whose decode response has a non-empty Model. -/
def aggC9 : Aggregate :=
  { nhtsa := some { Results := [[("Model", "ACCORD")]] } }

theorem vinSum_eq (l : List Char) (k : Nat) :
    vinSum l k = ((List.range l.length).map
      (fun i => translitD (l.getD i ' ') * weights.getD (k + i) 0)).sum := by
  induction l generalizing k with
  | nil => simp [vinSum]
  | cons c cs ih =>
    simp only [vinSum, List.length_cons, List.range_succ_eq_map,
      List.map_cons, List.map_map, List.sum_cons, List.getD_cons_zero,
      Nat.add_zero, ih]
    congr 1
    congr 1
    apply List.map_congr_left
    intro i _
    simp only [Function.comp_apply, List.getD_cons_succ]
    congr 2
    omega

theorem specVinSum_eq (v : String) (h : v.length = 17) :
    vinSum v.toList 0 = specVinSum v := by
  have hl : v.toList.length = 17 := h
  rw [vinSum_eq, specVinSum, hl]
  simp [specWeight]

theorem vinRegexOk_of (v : String) (hlen : v.length = 17)
    (hall : ∀ c ∈ v.toList, vinCharOk c = true) : vinRegexOk v = true := by
  simp [vinRegexOk, hlen, List.all_eq_true]
  exact hall

/-- C1: for every 17-character string over the VIN alphabet,
`vinChecksumValid` computes the ISO 3779 checksum — the transliterated
characters weighted by the fixed vector (weight 0 at position 8) are
summed mod 11, the expected check character is X for remainder 10 and the
decimal digit otherwise, and the function returns true iff the character
at index 8 equals the expected check character; the reference VIN
`1HGCM82633A004352` is valid and replacing its check character by any
other alphabet character makes it invalid. -/
theorem vin_checksum_iso3779 :
    (∀ v : String, v.length = 17 → (∀ c ∈ v.toList, vinCharOk c = true) →
      (vinChecksumValid v = true ↔ v.toList.getD 8 ' ' = specCheckChar v))
    ∧ specWeight 8 = 0
    ∧ vinChecksumValid "1HGCM82633A004352" = true
    ∧ (∀ c : Char, vinCharOk c = true → c ≠ '3' →
        vinChecksumValid (flipVin c) = false) := by
  refine ⟨?_, by decide, by decide, ?_⟩
  · intro v hlen hall
    have hreg := vinRegexOk_of v hlen hall
    have hsum : vinSum v.data 0 = specVinSum v := specVinSum_eq v hlen
    simp [vinChecksumValid, hreg, specCheckChar, hsum, beq_iff_eq]
  · intro c hc hne
    have hmem : c ∈ vinChars := of_decide_eq_true hc
    fin_cases hmem <;> first | (exact absurd rfl hne) | decide

theorem vin_checksum_iso3779_wit :
    (vinChecksumValid "1HGCM82633A004352" = true ↔
      "1HGCM82633A004352".toList.getD 8 ' ' =
        specCheckChar "1HGCM82633A004352")
    ∧ vinChecksumValid (flipVin 'A') = false :=
  ⟨vin_checksum_iso3779.1 "1HGCM82633A004352" (by decide) (by decide),
   vin_checksum_iso3779.2.2.2 'A' (by decide) (by decide)⟩

/-- C2: for every string that is not exactly 17 characters from the VIN
alphabet — including length 16 and 18 strings and strings containing
I, O, or Q — `vinChecksumValid` returns false. -/
theorem vin_checksum_rejects_nonconforming :
    (∀ v : String, ¬ (v.length = 17 ∧ ∀ c ∈ v.toList, vinCharOk c = true) →
      vinChecksumValid v = false)
    ∧ vinChecksumValid "1HGCM82633A00435" = false
    ∧ vinChecksumValid "1HGCM82633A0043522" = false
    ∧ vinChecksumValid "IHGCM82633A004352" = false
    ∧ vinChecksumValid "1HGCM82633AO04352" = false
    ∧ vinChecksumValid "QHGCM82633A004352" = false := by
  refine ⟨?_, by decide, by decide, by decide, by decide, by decide⟩
  intro v h
  have hreg : vinRegexOk v = false := by
    cases hr : vinRegexOk v with
    | false => rfl
    | true =>
      exfalso
      apply h
      simpa [vinRegexOk, Bool.and_eq_true, List.all_eq_true] using hr
  simp [vinChecksumValid, hreg]

theorem vin_checksum_rejects_nonconforming_wit :
    vinChecksumValid "ABC" = false :=
  vin_checksum_rejects_nonconforming.1 "ABC" (by decide)

theorem normalizeQuery_value (q : String) :
    (normalizeQuery q).value = cleanQuery q := by
  by_cases h1 : isLikelyVIN (cleanQuery q) = true
  · simp [normalizeQuery, h1]
  · by_cases h2 : plateRegexOk (cleanQuery q) = true <;>
      simp [normalizeQuery, h1, h2]

theorem isLikelyVIN_iff (v : String) :
    isLikelyVIN v = true ↔
      (v.length = 17 ∧ (∀ c ∈ v.toList, vinCharOk c = true) ∧
        vinChecksumValid v = true) := by
  constructor
  · intro h
    have h2 := (Bool.and_eq_true _ _).mp h
    have hreg := h2.1
    simp only [vinRegexOk, Bool.and_eq_true, beq_iff_eq,
      List.all_eq_true] at hreg
    exact ⟨hreg.1, hreg.2, h2.2⟩
  · intro ⟨h1, h2, h3⟩
    simp [isLikelyVIN, vinRegexOk_of v h1 h2, h3]

/-- C3: `normalizeQuery` trims, uppercases, and strips every character
outside the Latin alphanumeric class, classifies the cleaned value as VIN
iff it is 17 VIN-alphabet characters passing the checksum, otherwise as
PLATE iff it matches the 5–10 character plate pattern, otherwise as
UNKNOWN; it always returns a value and maps empty input to UNKNOWN with
value the empty string. -/
theorem normalize_classification (q : String) :
    (normalizeQuery q).value = cleanQuery q
    ∧ ((normalizeQuery q).kind = QueryKind.vin ↔
        ((cleanQuery q).length = 17 ∧
          (∀ c ∈ (cleanQuery q).toList, vinCharOk c = true) ∧
          vinChecksumValid (cleanQuery q) = true))
    ∧ ((normalizeQuery q).kind = QueryKind.plate ↔
        (isLikelyVIN (cleanQuery q) = false ∧
          plateRegexOk (cleanQuery q) = true))
    ∧ ((normalizeQuery q).kind = QueryKind.unknown ↔
        (isLikelyVIN (cleanQuery q) = false ∧
          plateRegexOk (cleanQuery q) = false))
    ∧ normalizeQuery "" = { kind := QueryKind.unknown, value := "" } := by
  refine ⟨normalizeQuery_value q, ?_, ?_, ?_, by decide⟩
  · rw [← isLikelyVIN_iff]
    by_cases h1 : isLikelyVIN (cleanQuery q) = true <;>
      by_cases h2 : plateRegexOk (cleanQuery q) = true <;>
      simp_all [normalizeQuery]
  · by_cases h1 : isLikelyVIN (cleanQuery q) = true <;>
      by_cases h2 : plateRegexOk (cleanQuery q) = true <;>
      simp_all [normalizeQuery]
  · by_cases h1 : isLikelyVIN (cleanQuery q) = true <;>
      by_cases h2 : plateRegexOk (cleanQuery q) = true <;>
      simp_all [normalizeQuery]

theorem upper_arm (c : Char) :
    jsUpperChar c = c ∨ jsUpperChar c ∈ latinUpperChars := by
  unfold jsUpperChar
  split <;> first | (left; rfl) | (right; decide)

theorem upperChars_fixed : ∀ y ∈ latinUpperChars, jsUpperChar y = y := by
  decide

theorem lowerChars_up :
    ∀ y ∈ latinLowerChars, jsUpperChar y ∈ latinUpperChars := by decide

theorem wsChars_not_alnum : ∀ y ∈ jsWsChars, isLatinAlnum y = false := by
  decide

theorem jsUpperChar_idem (c : Char) :
    jsUpperChar (jsUpperChar c) = jsUpperChar c := by
  rcases upper_arm c with h | h
  · rw [h]
    exact h
  · exact upperChars_fixed _ h

theorem alnum_not_ws (c : Char) (h : isLatinAlnum c = true) :
    isJsWs c = false := by
  by_cases hc : c ∈ jsWsChars
  · rw [wsChars_not_alnum c hc] at h
    cases h
  · simp [isJsWs, hc]

theorem mem_cleanList {c : Char} {l : List Char} (h : c ∈ cleanList l) :
    isLatinAlnum c = true ∧ ∃ y, c = jsUpperChar y := by
  unfold cleanList at h
  have h1 := List.mem_filter.mp h
  obtain ⟨y, _, hy⟩ := List.mem_map.mp h1.1
  exact ⟨h1.2, y, hy.symm⟩

theorem dropWhile_noop {p : Char → Bool} {l : List Char}
    (h : ∀ x ∈ l, p x = false) : l.dropWhile p = l := by
  cases l with
  | nil => rfl
  | cons a as =>
    rw [List.dropWhile_cons, h a (List.mem_cons_self a as)]
    simp

theorem jsTrimList_noop {l : List Char} (h : ∀ x ∈ l, isJsWs x = false) :
    jsTrimList l = l := by
  unfold jsTrimList
  rw [dropWhile_noop h, dropWhile_noop, List.reverse_reverse]
  intro x hx
  exact h x (List.mem_reverse.mp hx)

theorem map_noop {f : Char → Char} {l : List Char}
    (h : ∀ x ∈ l, f x = x) : l.map f = l :=
  (List.map_congr_left h).trans (List.map_id l)

theorem cleanList_idem (l : List Char) :
    cleanList (cleanList l) = cleanList l := by
  have halnum : ∀ x ∈ cleanList l, isLatinAlnum x = true :=
    fun x hx => (mem_cleanList hx).1
  have hfix : ∀ x ∈ cleanList l, jsUpperChar x = x := by
    intro x hx
    obtain ⟨y, hy⟩ := (mem_cleanList hx).2
    rw [hy]
    exact jsUpperChar_idem y
  show ((jsTrimList (cleanList l)).map jsUpperChar).filter isLatinAlnum =
    cleanList l
  rw [jsTrimList_noop (fun x hx => alnum_not_ws x (halnum x hx)),
    map_noop hfix]
  exact List.filter_eq_self.mpr halnum

/-- C4: the normalizer is idempotent — re-normalizing the returned value
changes neither the kind nor the value. -/
theorem normalize_idempotent (q : String) :
    normalizeQuery (normalizeQuery q).value = normalizeQuery q := by
  rw [normalizeQuery_value q]
  have hclean : cleanQuery (cleanQuery q) = cleanQuery q :=
    congrArg String.mk (cleanList_idem q.toList)
  simp only [normalizeQuery, hclean]

theorem clean_char {c : Char} {l : List Char} (h : c ∈ cleanList l) :
    c ∈ latinUpperChars ∨ c ∈ digitChars := by
  obtain ⟨h1, y, rfl⟩ := mem_cleanList h
  rcases upper_arm y with he | he
  · rw [he] at h1 ⊢
    simp only [isLatinAlnum, Bool.or_eq_true, decide_eq_true_eq] at h1
    rcases h1 with (h1 | h1) | h1
    · exact Or.inl h1
    · have := lowerChars_up y h1
      rw [he] at this
      exact Or.inl this
    · exact Or.inr h1
  · exact Or.inl he

/-- C10 (implicit): the cleaned value contains only Latin alphanumeric
characters, so the Cyrillic alternatives of the plate pattern can never
match — on cleaned values the plate pattern coincides with the Latin-only
pattern — and any input whose cleaned form has fewer than 5 characters is
classified UNKNOWN. -/
theorem normalize_latin_only (q : String) :
    (∀ c ∈ (normalizeQuery q).value.toList, isLatinAlnum c = true)
    ∧ plateRegexOk (cleanQuery q) = latinPlateOk (cleanQuery q)
    ∧ ((cleanQuery q).length < 5 →
        (normalizeQuery q).kind = QueryKind.unknown) := by
  refine ⟨?_, ?_, ?_⟩
  · intro c hc
    rw [normalizeQuery_value q] at hc
    exact (mem_cleanList hc).1
  · have hc2 : (cleanQuery q).toList.all
        (fun c => decide (c ∈ latinUpperChars) || decide (c ∈ digitChars)) =
          true := by
      rw [List.all_eq_true]
      intro c hc
      rcases clean_char hc with h | h <;> simp [h]
    have hc1 : (cleanQuery q).toList.all plateCharOk = true := by
      rw [List.all_eq_true]
      intro c hc
      rcases clean_char hc with h | h <;> simp [plateCharOk, h]
    unfold plateRegexOk latinPlateOk
    rw [hc1, hc2]
  · intro h
    have hv : isLikelyVIN (cleanQuery q) = false := by
      have : ((cleanQuery q).length == 17) = false := by
        simp
        omega
      simp [isLikelyVIN, vinRegexOk, this]
    have hp : plateRegexOk (cleanQuery q) = false := by
      have : decide (5 ≤ (cleanQuery q).length) = false := by
        simp
        omega
      simp [plateRegexOk, this]
    simp [normalizeQuery, hv, hp]

theorem normalize_latin_only_wit :
    isLatinAlnum '1' = true
    ∧ (normalizeQuery "ВС1234ХА").kind = QueryKind.unknown :=
  ⟨(normalize_latin_only "ВС1234ХА").1 '1' (by decide),
   (normalize_latin_only "ВС1234ХА").2.2 (by decide)⟩

theorem mem_setAdd {l : List String} {x y : String} :
    x ∈ setAdd l y ↔ x ∈ l ∨ x = y := by
  unfold setAdd
  split
  · constructor
    · exact Or.inl
    · rintro (h | rfl)
      · exact h
      · assumption
  · simp [List.mem_append]

theorem nodup_setAdd {l : List String} {y : String} (h : l.Nodup) :
    (setAdd l y).Nodup := by
  unfold setAdd
  split
  · exact h
  · simp_all [List.nodup_append]

theorem mem_foldl_setAdd (p : String → Bool) (l acc : List String)
    (x : String) :
    x ∈ l.foldl (fun a kw => if p kw = true then setAdd a kw else a) acc ↔
      x ∈ acc ∨ (x ∈ l ∧ p x = true) := by
  induction l generalizing acc with
  | nil => simp
  | cons kw tl ih =>
    simp only [List.foldl_cons]
    rw [ih]
    by_cases hp : p kw = true
    · rw [if_pos hp]
      constructor
      · rintro (h | ⟨h1, h2⟩)
        · rcases mem_setAdd.mp h with h | rfl
          · exact Or.inl h
          · exact Or.inr ⟨List.mem_cons_self _ _, hp⟩
        · exact Or.inr ⟨List.mem_cons_of_mem _ h1, h2⟩
      · rintro (h | ⟨h1, h2⟩)
        · exact Or.inl (mem_setAdd.mpr (Or.inl h))
        · rcases List.mem_cons.mp h1 with rfl | h1
          · exact Or.inl (mem_setAdd.mpr (Or.inr rfl))
          · exact Or.inr ⟨h1, h2⟩
    · rw [if_neg hp]
      constructor
      · rintro (h | ⟨h1, h2⟩)
        · exact Or.inl h
        · exact Or.inr ⟨List.mem_cons_of_mem _ h1, h2⟩
      · rintro (h | ⟨h1, h2⟩)
        · exact Or.inl h
        · rcases List.mem_cons.mp h1 with rfl | h1
          · exact absurd h2 hp
          · exact Or.inr ⟨h1, h2⟩

theorem nodup_foldl_setAdd (p : String → Bool) (l : List String)
    {acc : List String} (h : acc.Nodup) :
    (l.foldl (fun a kw => if p kw = true then setAdd a kw else a)
      acc).Nodup := by
  induction l generalizing acc with
  | nil => exact h
  | cons kw tl ih =>
    simp only [List.foldl_cons]
    by_cases hp : p kw = true
    · rw [if_pos hp]
      exact ih (nodup_setAdd h)
    · rw [if_neg hp]
      exact ih h

theorem risksOf_eq (agg : Aggregate) :
    risksOf agg =
      (if 2 ≤ (agg.webHits.getD []).countP (fun h => auctionPat h.link)
       then setAdd
         (RISK_KEYWORDS.foldl
           (fun acc kw =>
             if includesStr (jsLowerStr (riskText agg)) kw = true
             then setAdd acc kw else acc) [])
         "multiple_auctions"
       else RISK_KEYWORDS.foldl
         (fun acc kw =>
           if includesStr (jsLowerStr (riskText agg)) kw = true
           then setAdd acc kw else acc) []) := rfl

theorem mem_risksOf (agg : Aggregate) (x : String) :
    x ∈ risksOf agg ↔
      ((x ∈ RISK_KEYWORDS ∧
          includesStr (jsLowerStr (riskText agg)) x = true)
        ∨ (x = "multiple_auctions" ∧
            2 ≤ (agg.webHits.getD []).countP (fun h => auctionPat h.link))) := by
  by_cases hc :
      2 ≤ (agg.webHits.getD []).countP (fun h => auctionPat h.link)
  · rw [risksOf_eq, if_pos hc, mem_setAdd, mem_foldl_setAdd]
    simp only [List.not_mem_nil, false_or]
    constructor
    · rintro (⟨h1, h2⟩ | rfl)
      · exact Or.inl ⟨h1, h2⟩
      · exact Or.inr ⟨rfl, hc⟩
    · rintro (⟨h1, h2⟩ | ⟨rfl, _⟩)
      · exact Or.inl ⟨h1, h2⟩
      · exact Or.inr rfl
  · rw [risksOf_eq, if_neg hc, mem_foldl_setAdd]
    simp only [List.not_mem_nil, false_or]
    constructor
    · exact fun h => Or.inl h
    · rintro (h | ⟨_, h⟩)
      · exact h
      · exact absurd h hc

theorem nodup_risksOf (agg : Aggregate) : (risksOf agg).Nodup := by
  rw [risksOf_eq]
  split
  · exact nodup_setAdd
      (nodup_foldl_setAdd _ RISK_KEYWORDS List.nodup_nil)
  · exact nodup_foldl_setAdd _ RISK_KEYWORDS List.nodup_nil

/-- C7 counterexample: the evaluator scans the serialization of the whole
NHTSA decode response, not of the six decoded facts — here the keyword
salvage occurs only in a response field outside the facts, the claim's
facts-based text does not contain it, yet the risk set flags it. -/
theorem risks_keyword_cex :
    "salvage" ∈ risksOf aggRisksCex
    ∧ includesStr (jsLowerStr (specRiskText aggRisksCex)) "salvage" =
        false := by decide

/-- C7 (amended): the risk evaluator concatenates a serialization of the
web hits and the raw NHTSA decode response, lower-cases it, and tests
substring membership of each fixed risk keyword; each matched keyword
appears exactly once in the deduplicated risk list, and the evaluator is
a pure function of the aggregate. -/
theorem risks_keyword_amended (agg : Aggregate) :
    (∀ kw ∈ RISK_KEYWORDS,
      (kw ∈ risksOf agg ↔
        includesStr (jsLowerStr (riskText agg)) kw = true))
    ∧ (risksOf agg).Nodup := by
  refine ⟨?_, nodup_risksOf agg⟩
  intro kw hkw
  have hma : "multiple_auctions" ∉ RISK_KEYWORDS := by decide
  rw [mem_risksOf]
  constructor
  · rintro (⟨_, h⟩ | ⟨rfl, _⟩)
    · exact h
    · exact absurd hkw hma
  · intro h
    exact Or.inl ⟨hkw, h⟩

theorem risks_keyword_amended_wit :
    ("salvage" ∈ risksOf aggRisksCex ↔
      includesStr (jsLowerStr (riskText aggRisksCex)) "salvage" = true)
    ∧ (risksOf aggRisksCex).Nodup :=
  ⟨(risks_keyword_amended aggRisksCex).1 "salvage" (by decide),
   (risks_keyword_amended aggRisksCex).2⟩

/-- C8 counterexample: the code counts hits whose whole link string
matches the auction pattern, not hits whose link host matches — here
neither host matches an auction domain, the host-based count is 0, yet
the risk set contains the multiple_auctions label. -/
theorem auction_count_cex :
    "multiple_auctions" ∈ risksOf aggAuctionPathCex
    ∧ specHostAuctionCount (aggAuctionPathCex.webHits.getD []) = 0 := by
  decide

/-- C8 (amended): the evaluator counts hits whose entire link string
case-insensitively contains copart, iaai, auction, or salvage, and adds
the synthetic multiple_auctions label iff that count is at least 2; the
Copart/IAAI example of the claim yields the label. -/
theorem auction_count_amended :
    (∀ agg : Aggregate,
      ("multiple_auctions" ∈ risksOf agg ↔
        2 ≤ (agg.webHits.getD []).countP (fun h => auctionPat h.link)))
    ∧ "multiple_auctions" ∈ risksOf aggAuctionEx := by
  constructor
  · intro agg
    have hma : "multiple_auctions" ∉ RISK_KEYWORDS := by decide
    rw [mem_risksOf]
    constructor
    · rintro (⟨h, _⟩ | ⟨_, h⟩)
      · exact absurd h hma
      · exact h
    · intro h
      exact Or.inr ⟨rfl, h⟩
  · decide

/-- C9 counterexample: for a VIN input with a decoded Model, the
vin_decoded marker note is the string NHTSA decoded, not the string
decoded claimed by the spec. -/
theorem markers_note_cex :
    (markersOf normC9 aggC9).vin_decoded =
      some { ok := true, note := "NHTSA decoded" }
    ∧ (markersOf normC9 aggC9).vin_decoded ≠
        some { ok := true, note := "decoded" } := by decide

/-- C9 (amended): with zero web hits web_presence is ok false, note
no hits; with risk labels risk_flags is ok false with the comma-joined
labels and ok true, note none otherwise; for VIN inputs vin_decoded has
ok true iff the first NHTSA result row has a non-empty Model (the value
the decode stage copies into the facts), with note NHTSA decoded when
decoded and no decode otherwise. -/
theorem markers_amended (n : NormalizedInput) (agg : Aggregate) :
    ((agg.webHits.getD []).length = 0 →
      (markersOf n agg).web_presence = { ok := false, note := "no hits" })
    ∧ (agg.risks.getD [] ≠ [] →
        (markersOf n agg).risk_flags =
          { ok := false,
            note := String.intercalate ", " (agg.risks.getD []) })
    ∧ (agg.risks.getD [] = [] →
        (markersOf n agg).risk_flags = { ok := true, note := "none" })
    ∧ (n.kind = QueryKind.vin →
        (markersOf n agg).vin_decoded =
          some { ok := decodedOk agg,
                 note := if decodedOk agg then "NHTSA decoded"
                         else "no decode" })
    ∧ (decodedOk agg = true ↔
        ∃ nh, agg.nhtsa = some nh ∧ ∃ row, nh.Results.head? = some row ∧
          ∃ m, List.lookup "Model" row = some m ∧ m ≠ "") := by
  refine ⟨?_, ?_, ?_, ?_, ?_⟩
  · intro h
    simp [markersOf, h]
  · intro h
    have hl : 0 < (agg.risks.getD []).length := List.length_pos.mpr h
    simp [markersOf, hl, Nat.pos_iff_ne_zero.mp hl]
  · intro h
    simp [markersOf, h]
  · intro h
    simp [markersOf, h]
  · rcases hn : agg.nhtsa with _ | nh
    · simp [decodedOk, hn]
    · rcases hr : nh.Results.head? with _ | row
      · simp [decodedOk, hn, hr]
      · rcases hm : List.lookup "Model" row with _ | m
        · simp [decodedOk, hn, hr, hm]
        · simp [decodedOk, hn, hr, hm]

theorem markers_amended_wit :
    (markersOf normC9 aggC9).web_presence =
      { ok := false, note := "no hits" }
    ∧ (markersOf normC9 aggC9).risk_flags = { ok := true, note := "none" }
    ∧ (markersOf normC9 aggC9).vin_decoded =
        some { ok := decodedOk aggC9,
               note := if decodedOk aggC9 then "NHTSA decoded"
                       else "no decode" }
    ∧ (markersOf normC9
        { aggC9 with risks := some ["salvage", "flood"] }).risk_flags =
      { ok := false, note := String.intercalate ", " ["salvage", "flood"] } :=
  ⟨(markers_amended normC9 aggC9).1 (by decide),
   (markers_amended normC9 aggC9).2.2.1 (by decide),
   (markers_amended normC9 aggC9).2.2.2.1 (by decide),
   (markers_amended normC9
     { aggC9 with risks := some ["salvage", "flood"] }).2.1 (by decide)⟩

theorem nodeNormalize_norm (s : State) :
    (nodeNormalize s).norm = some (normalizeQuery s.input) := by
  simp [nodeNormalize]

theorem nodeNormalize_frame (s : State) :
    (nodeNormalize s).input = s.input
    ∧ (nodeNormalize s).aggregates.nhtsa = s.aggregates.nhtsa
    ∧ (nodeNormalize s).aggregates.facts = s.aggregates.facts
    ∧ (nodeNormalize s).aggregates.webHits = s.aggregates.webHits
    ∧ (nodeNormalize s).aggregates.risks = s.aggregates.risks
    ∧ (nodeNormalize s).aggregates.markers = s.aggregates.markers
    ∧ (nodeNormalize s).aggregates.report = s.aggregates.report := by
  simp only [nodeNormalize]
  split_ifs <;> simp

theorem nodeNormalize_vin (s : State)
    (h : (normalizeQuery s.input).kind = QueryKind.vin) :
    (nodeNormalize s).aggregates.vin = some (normalizeQuery s.input).value := by
  simp [nodeNormalize, h]

theorem vin_value_len (q : String)
    (h : (normalizeQuery q).kind = QueryKind.vin) :
    (normalizeQuery q).value.length = 17 := by
  rw [normalizeQuery_value]
  exact (((normalize_classification q).2.1).mp h).1

theorem nodeVinInfo_ok_frame {ε : Type} (d : String → Except ε Nhtsa)
    (s s' : State) (h : nodeVinInfo d s = Except.ok s') :
    s'.input = s.input ∧ s'.norm = s.norm
    ∧ s'.aggregates.vin = s.aggregates.vin
    ∧ s'.aggregates.plate = s.aggregates.plate
    ∧ s'.aggregates.vinValid = s.aggregates.vinValid
    ∧ s'.aggregates.webHits = s.aggregates.webHits
    ∧ s'.aggregates.risks = s.aggregates.risks
    ∧ s'.aggregates.markers = s.aggregates.markers
    ∧ s'.aggregates.report = s.aggregates.report := by
  unfold nodeVinInfo at h
  repeat' split at h
  all_goals first
    | (exact Except.noConfusion h)
    | (injection h with h
       subst h
       exact ⟨rfl, rfl, rfl, rfl, rfl, rfl, rfl, rfl, rfl⟩)

theorem nodeWebSearch_ok {ε : Type} (se : String → Except ε (List WebHit))
    (s s' : State) (h : nodeWebSearch se s = Except.ok s') :
    ∃ hits,
      s' = { s with aggregates :=
        { s.aggregates with webHits := some hits } } := by
  simp only [nodeWebSearch] at h
  split at h
  · exact Except.noConfusion h
  · injection h with h
    subst h
    exact ⟨_, rfl⟩

theorem nodeReport_ok {ε : Type} (su : ReportPayload → Except ε String)
    (s s' : State) (h : nodeReport su s = Except.ok s') :
    ∃ rpt,
      s' = { s with aggregates :=
        { s.aggregates with report := some rpt } } := by
  unfold nodeReport at h
  split at h
  · exact Except.noConfusion h
  · injection h with h
    subst h
    exact ⟨_, rfl⟩

/-- C6: when the decode collaborator raises, the pipeline aborts — the
remaining stages never run, no aggregate (hence no report, markers, or
risks) reaches the caller, and the propagated error is the collaborator's
error annotated with the vin_info stage name. -/
theorem pipeline_failfast_vininfo {ε : Type} (q : String) (e : ε)
    (se : String → Except ε (List WebHit))
    (su : ReportPayload → Except ε String)
    (h : (normalizeQuery q).kind = QueryKind.vin) :
    runPipeline (fun _ => Except.error e) se su q =
      Except.error ("vin_info", e)
    ∧ ∀ s : State,
        runPipeline (fun _ => Except.error e) se su q ≠ Except.ok s := by
  have hq : (normalizeQuery (initState q).input).kind = QueryKind.vin := h
  have hne : (normalizeQuery q).value ≠ "" := by
    intro he
    have hl := vin_value_len q h
    rw [he] at hl
    simp at hl
  have hvin : nodeVinInfo (fun _ => Except.error e)
      (nodeNormalize (initState q)) = Except.error e := by
    rw [nodeVinInfo, nodeNormalize_norm, nodeNormalize_vin _ hq]
    simp [initState, h, hne]
  have hrun : runPipeline (fun _ => Except.error e) se su q =
      Except.error ("vin_info", e) := by
    rw [runPipeline]
    rw [hvin]
  refine ⟨hrun, fun s hs => ?_⟩
  rw [hrun] at hs
  exact Except.noConfusion hs

theorem pipeline_failfast_vininfo_wit :
    runPipeline (fun _ => Except.error "boom")
      (fun _ => Except.ok ([] : List WebHit))
      (fun _ => Except.ok "")
      "1HGCM82633A004352" = Except.error ("vin_info", "boom") :=
  (pipeline_failfast_vininfo "1HGCM82633A004352" "boom"
    (fun _ => Except.ok ([] : List WebHit)) (fun _ => Except.ok "")
    (by decide)).1

theorem vinInfo_preserves {ε : Type} (d : String → Except ε Nhtsa)
    (s s' : State) (h : nodeVinInfo d s = Except.ok s')
    (hnh : s.aggregates.nhtsa = none) (hfa : s.aggregates.facts = none) :
    agPreserves s.aggregates s'.aggregates := by
  obtain ⟨_, _, f3, f4, f5, f6, f7, f8, f9⟩ := nodeVinInfo_ok_frame d s s' h
  intro f hf
  cases f
  · simp [Aggregate.fieldGet, f3]
  · simp [Aggregate.fieldGet, f4]
  · simp [Aggregate.fieldGet, f5]
  · simp [Aggregate.fieldGet, hnh] at hf
  · simp [Aggregate.fieldGet, hfa] at hf
  · simp [Aggregate.fieldGet, f6]
  · simp [Aggregate.fieldGet, f7]
  · simp [Aggregate.fieldGet, f8]
  · simp [Aggregate.fieldGet, f9]

theorem webSearch_preserves {ε : Type}
    (se : String → Except ε (List WebHit)) (s s' : State)
    (h : nodeWebSearch se s = Except.ok s')
    (hwh : s.aggregates.webHits = none) :
    agPreserves s.aggregates s'.aggregates := by
  obtain ⟨hits, rfl⟩ := nodeWebSearch_ok se s s' h
  intro f hf
  cases f
  · simp [Aggregate.fieldGet]
  · simp [Aggregate.fieldGet]
  · simp [Aggregate.fieldGet]
  · simp [Aggregate.fieldGet]
  · simp [Aggregate.fieldGet]
  · simp [Aggregate.fieldGet, hwh] at hf
  · simp [Aggregate.fieldGet]
  · simp [Aggregate.fieldGet]
  · simp [Aggregate.fieldGet]

theorem risks_preserves (s : State) (hri : s.aggregates.risks = none) :
    agPreserves s.aggregates (nodeRisks s).aggregates := by
  intro f hf
  cases f
  · simp [Aggregate.fieldGet, nodeRisks]
  · simp [Aggregate.fieldGet, nodeRisks]
  · simp [Aggregate.fieldGet, nodeRisks]
  · simp [Aggregate.fieldGet, nodeRisks]
  · simp [Aggregate.fieldGet, nodeRisks]
  · simp [Aggregate.fieldGet, nodeRisks]
  · simp [Aggregate.fieldGet, hri] at hf
  · simp [Aggregate.fieldGet, nodeRisks]
  · simp [Aggregate.fieldGet, nodeRisks]

theorem markers_preserves (s : State)
    (hma : s.aggregates.markers = none) :
    agPreserves s.aggregates (nodeMarkers s).aggregates := by
  intro f hf
  cases f
  · simp [Aggregate.fieldGet, nodeMarkers]
  · simp [Aggregate.fieldGet, nodeMarkers]
  · simp [Aggregate.fieldGet, nodeMarkers]
  · simp [Aggregate.fieldGet, nodeMarkers]
  · simp [Aggregate.fieldGet, nodeMarkers]
  · simp [Aggregate.fieldGet, nodeMarkers]
  · simp [Aggregate.fieldGet, nodeMarkers]
  · simp [Aggregate.fieldGet, hma] at hf
  · simp [Aggregate.fieldGet, nodeMarkers]

theorem report_preserves {ε : Type} (su : ReportPayload → Except ε String)
    (s s' : State) (h : nodeReport su s = Except.ok s')
    (hre : s.aggregates.report = none) :
    agPreserves s.aggregates s'.aggregates := by
  obtain ⟨rpt, rfl⟩ := nodeReport_ok su s s' h
  intro f hf
  cases f
  · simp [Aggregate.fieldGet]
  · simp [Aggregate.fieldGet]
  · simp [Aggregate.fieldGet]
  · simp [Aggregate.fieldGet]
  · simp [Aggregate.fieldGet]
  · simp [Aggregate.fieldGet]
  · simp [Aggregate.fieldGet]
  · simp [Aggregate.fieldGet]
  · simp [Aggregate.fieldGet, hre] at hf

/-- C5: in every run where all stages complete, the pipeline accumulates
monotonically — each stage's patch preserves every aggregate field already
present, with its value, and each field of the final aggregate equals the
value of the (unique) last patch that set it: the identifiers from the
normalize stage, nhtsa and facts from the decode stage, the hit list from
the search stage, risks, markers, and report from their own stages. -/
theorem pipeline_merge_monotone {ε : Type} (d : String → Except ε Nhtsa)
    (se : String → Except ε (List WebHit))
    (su : ReportPayload → Except ε String) (q : String) (s : State)
    (h : runPipeline d se su q = Except.ok s) :
    ∃ s1 s2 s3 s4 s5 : State,
      s1 = nodeNormalize (initState q)
      ∧ nodeVinInfo d s1 = Except.ok s2
      ∧ nodeWebSearch se s2 = Except.ok s3
      ∧ s4 = nodeRisks s3
      ∧ s5 = nodeMarkers s4
      ∧ nodeReport su s5 = Except.ok s
      ∧ agPreserves s1.aggregates s2.aggregates
      ∧ agPreserves s2.aggregates s3.aggregates
      ∧ agPreserves s3.aggregates s4.aggregates
      ∧ agPreserves s4.aggregates s5.aggregates
      ∧ agPreserves s5.aggregates s.aggregates
      ∧ s.aggregates.vin = s1.aggregates.vin
      ∧ s.aggregates.plate = s1.aggregates.plate
      ∧ s.aggregates.vinValid = s1.aggregates.vinValid
      ∧ s.aggregates.nhtsa = s2.aggregates.nhtsa
      ∧ s.aggregates.facts = s2.aggregates.facts
      ∧ (∃ hits, s3.aggregates.webHits = some hits
          ∧ s.aggregates.webHits = some hits)
      ∧ s4.aggregates.risks = some (risksOf s3.aggregates)
      ∧ s.aggregates.risks = s4.aggregates.risks
      ∧ (s5.aggregates.markers).isSome = true
      ∧ s.aggregates.markers = s5.aggregates.markers
      ∧ (s.aggregates.report).isSome = true := by
  simp only [runPipeline] at h
  cases h2 : nodeVinInfo d (nodeNormalize (initState q)) with
  | error e =>
    rw [h2] at h
    exact Except.noConfusion h
  | ok s2 =>
    rw [h2] at h
    dsimp only at h
    cases h3 : nodeWebSearch se s2 with
    | error e =>
      rw [h3] at h
      exact Except.noConfusion h
    | ok s3 =>
      rw [h3] at h
      dsimp only at h
      cases h6 : nodeReport su (nodeMarkers (nodeRisks s3)) with
      | error e =>
        rw [h6] at h
        exact Except.noConfusion h
      | ok s6 =>
        rw [h6] at h
        dsimp only at h
        injection h with h
        subst h
        obtain ⟨f2i, f2no, f2vi, f2pl, f2vv, f2wh, f2ri, f2ma, f2re⟩ :=
          nodeVinInfo_ok_frame d _ s2 h2
        have e_nh : (nodeNormalize (initState q)).aggregates.nhtsa = none :=
          (nodeNormalize_frame (initState q)).2.1
        have e_fa : (nodeNormalize (initState q)).aggregates.facts = none :=
          (nodeNormalize_frame (initState q)).2.2.1
        have e_wh : (nodeNormalize (initState q)).aggregates.webHits =
          none := (nodeNormalize_frame (initState q)).2.2.2.1
        have e_ri : (nodeNormalize (initState q)).aggregates.risks = none :=
          (nodeNormalize_frame (initState q)).2.2.2.2.1
        have e_ma : (nodeNormalize (initState q)).aggregates.markers =
          none := (nodeNormalize_frame (initState q)).2.2.2.2.2.1
        have e_re : (nodeNormalize (initState q)).aggregates.report =
          none := (nodeNormalize_frame (initState q)).2.2.2.2.2.2
        have w2 : s2.aggregates.webHits = none := f2wh.trans e_wh
        have r2 : s2.aggregates.risks = none := f2ri.trans e_ri
        have m2 : s2.aggregates.markers = none := f2ma.trans e_ma
        have p2 : s2.aggregates.report = none := f2re.trans e_re
        obtain ⟨hits, rfl⟩ := nodeWebSearch_ok se s2 s3 h3
        obtain ⟨rpt, rfl⟩ := nodeReport_ok su _ s6 h6
        exact ⟨nodeNormalize (initState q), s2, _, _, _, rfl, h2, h3, rfl,
          rfl, h6,
          vinInfo_preserves d _ s2 h2 e_nh e_fa,
          webSearch_preserves se s2 _ h3 w2,
          risks_preserves _ r2,
          markers_preserves _ m2,
          report_preserves su _ _ h6 p2,
          f2vi, f2pl, f2vv, rfl, rfl, ⟨hits, rfl, rfl⟩,
          rfl, rfl, rfl, rfl, rfl⟩

theorem pipeline_merge_monotone_wit :
    ∃ s1 s2 s3 s4 s5 : State,
      s1 = nodeNormalize (initState "")
      ∧ nodeVinInfo
          (fun _ => (Except.ok { Results := [] } : Except String Nhtsa))
          s1 = Except.ok s2
      ∧ nodeWebSearch
          (fun _ => (Except.ok [] : Except String (List WebHit))) s2 =
          Except.ok s3
      ∧ s4 = nodeRisks s3
      ∧ s5 = nodeMarkers s4
      ∧ nodeReport (fun _ => (Except.ok "R" : Except String String)) s5 =
          Except.ok
          { input := "",
            norm := some { kind := QueryKind.unknown, value := "" },
            aggregates :=
              { webHits := some [], risks := some [],
                markers := some
                  { input_type := { ok := false, note := "unknown" },
                    vin_checksum := none, vin_decoded := none,
                    web_presence := { ok := false, note := "no hits" },
                    risk_flags := { ok := true, note := "none" } },
                report := some "R" } }
      ∧ agPreserves s1.aggregates s2.aggregates
      ∧ agPreserves s2.aggregates s3.aggregates
      ∧ agPreserves s3.aggregates s4.aggregates
      ∧ agPreserves s4.aggregates s5.aggregates := by
  obtain ⟨s1, s2, s3, s4, s5, e1, e2, e3, e4, e5, e6, p1, p2, p3, p4, _⟩ :=
    pipeline_merge_monotone
      (fun _ => (Except.ok { Results := [] } : Except String Nhtsa))
      (fun _ => (Except.ok [] : Except String (List WebHit)))
      (fun _ => (Except.ok "R" : Except String String)) ""
      { input := "",
        norm := some { kind := QueryKind.unknown, value := "" },
        aggregates :=
          { webHits := some [], risks := some [],
            markers := some
              { input_type := { ok := false, note := "unknown" },
                vin_checksum := none, vin_decoded := none,
                web_presence := { ok := false, note := "no hits" },
                risk_flags := { ok := true, note := "none" } },
            report := some "R" } }
      (by rfl)
  exact ⟨s1, s2, s3, s4, s5, e1, e2, e3, e4, e5, e6, p1, p2, p3, p4⟩

end VinAgent
